import Mathlib

/-!
# Verification of the four-color-theorem game mesh core (`src/main.go`)

Shallow embedding of the geometric primitives, the overlap/degeneracy
tests, the mesh growth engine (`generateTriangles`), the adjacency
builder, the reveal-order builder (`getLinesWithDrawOrder`) and the
coloring validator of `main.go`.

Modelling conventions:

* Go `float64` coordinates are modelled as exact rationals (`ℚ`).  All
  coordinates in the program are produced by a small closed set of
  formulas and compared with exact `==`, which the spec itself calls out
  as deliberate; the rational model makes those comparisons exact.
* The only places the source computes irrational values are
  (a) `Point.norm` (a square root),
  (b) the random new-vertex construction
      `line[0].add(v.rotate(theta).div(v.norm()).mul(100.0))` in
      `extendLine`, and
  (c) the interior-angle test `cos > math.Cos(math.Pi/6)`.
  For (b) the pseudo-random draw `theta` (one `NormFloat64` per
  `extendLine` call) is abstracted: the generator is parameterised by a
  stream of candidate raw points, one consumed per `extendLine` call,
  standing for the point the source computes from the drawn angle.
  For (a) and (c) the comparisons are expressed by their exact rational
  equivalents (dividing the separating axis by its positive norm does
  not change any of the projection comparisons, and `cos > cos(π/6)`
  holds iff `dot > 0 ∧ 4·dot² > 3·|v₁|²·|v₂|²`); bridging lemmas over
  `ℝ` relate the rational tests to the source formulas written with
  `Real.sqrt` and `Real.cos (π/6)`.
* Go slices are Lean lists; the non-owning `Area.adjacents` pointers are
  modelled as indices into the area list.
* Go's `sort.Slice` (deterministic, but with unspecified tie order) is
  modelled by `List.insertionSort` on the same comparison key.
-/

/-- Screen width, from `const screenWidth = 640`. -/
def screenWidth : ℚ := 640

/-- Screen height, from `const screenHeight = 480`. -/
def screenHeight : ℚ := 480

/-- Cap on the mesh size, from `const maxTriangleNum = 30`. -/
def maxTriangleNum : ℕ := 30

/-- A 2D point, `type Point struct { x, y float64 }`. -/
structure Point where
  x : ℚ
  y : ℚ
deriving DecidableEq, Repr

/-- `func (p *Point) add(q *Point) *Point`. -/
def Point.add (p q : Point) : Point := ⟨p.x + q.x, p.y + q.y⟩

/-- `func (p *Point) sub(q *Point) *Point`. -/
def Point.sub (p q : Point) : Point := ⟨p.x - q.x, p.y - q.y⟩

/-- `func (p *Point) mul(a float64) *Point`. -/
def Point.mul (p : Point) (a : ℚ) : Point := ⟨p.x * a, p.y * a⟩

/-- `func (p *Point) div(a float64) *Point`. -/
def Point.div (p : Point) (a : ℚ) : Point := ⟨p.x / a, p.y / a⟩

/-- `func (p *Point) innerProd(q *Point) float64`. -/
def Point.innerProd (p q : Point) : ℚ := p.x * q.x + p.y * q.y

/-- `func (p *Point) outerProdZ(q *Point) float64`. -/
def Point.outerProdZ (p q : Point) : ℚ := p.x * q.y - p.y * q.x

/-- The square of `func (p *Point) norm() float64`; the source's `norm`
is `sqrt (x² + y²)`, which is irrational — every comparison that uses it
is expressed below through this square, with bridging lemmas to the
`Real.sqrt` form. -/
def Point.normSq (p : Point) : ℚ := p.x ^ 2 + p.y ^ 2

/-- A segment, `type Line [2]Point` (an unordered pair; see `equals`). -/
structure Line where
  p0 : Point
  p1 : Point
deriving DecidableEq, Repr

/-- `func (l *Line) equals(m *Line) bool`: order-independent segment
equality. -/
def Line.equals (l m : Line) : Bool :=
  (l.p0 == m.p0 && l.p1 == m.p1) || (l.p0 == m.p1 && l.p1 == m.p0)

/-- `func (l *Line) normSq() float64`. -/
def Line.normSq (l : Line) : ℚ := (l.p0.x - l.p1.x) ^ 2 + (l.p0.y - l.p1.y) ^ 2

/-- `func (l *Line) distanceSq(p *Point) float64`: squared distance from
`p` to the infinite line through the segment.  (`ℚ` division by zero is
`0`; the source would produce `NaN` on a degenerate segment, but the
mesh never contains one.) -/
def Line.distanceSq (l : Line) (p : Point) : ℚ :=
  ((l.p1.x - l.p0.x) * (l.p0.y - p.y) - (l.p1.y - l.p0.y) * (l.p0.x - p.x)) ^ 2 / l.normSq

/-- `type Triangle [3]Point`. -/
structure Triangle where
  q0 : Point
  q1 : Point
  q2 : Point
deriving DecidableEq, Repr

/-- Vertex access `t[n % 3]`, mirroring the source's cyclic indexing. -/
def Triangle.v (t : Triangle) (n : ℕ) : Point :=
  match n % 3 with
  | 0 => t.q0
  | 1 => t.q1
  | _ => t.q2

/-- The edge `Line([2]Point{t[i%3], t[(i+1)%3]})` used throughout the
source. -/
def Triangle.edge (t : Triangle) (i : ℕ) : Line := ⟨t.v i, t.v (i + 1)⟩

/-- `func (t *Triangle) equals(s *Triangle) bool`: equality of the two
vertex triples under all 6 permutations. -/
def Triangle.equals (t s : Triangle) : Bool :=
  (t.q0 == s.q0 && t.q1 == s.q1 && t.q2 == s.q2) ||
  (t.q0 == s.q0 && t.q1 == s.q2 && t.q2 == s.q1) ||
  (t.q0 == s.q1 && t.q1 == s.q0 && t.q2 == s.q2) ||
  (t.q0 == s.q1 && t.q1 == s.q2 && t.q2 == s.q0) ||
  (t.q0 == s.q2 && t.q1 == s.q1 && t.q2 == s.q0) ||
  (t.q0 == s.q2 && t.q1 == s.q0 && t.q2 == s.q1)

/-- `func (t *Triangle) covers(p *Point) bool`: strict same-side test on
the three consecutive edges; boundary points are not covered. -/
def Triangle.covers (t : Triangle) (p : Point) : Bool :=
  let v0 := t.q0.sub t.q1
  let v1 := t.q1.sub t.q2
  let v2 := t.q2.sub t.q0
  let z0 := v0.outerProdZ (p.sub t.q0)
  let z1 := v1.outerProdZ (p.sub t.q1)
  let z2 := v2.outerProdZ (p.sub t.q2)
  (decide (0 < z0) && decide (0 < z1) && decide (0 < z2)) ||
  (decide (z0 < 0) && decide (z1 < 0) && decide (z2 < 0))

/-- `func (t *Triangle) contains(l *Line) bool`: both endpoints of `l`
are vertices of `t`. -/
def Triangle.contains (t : Triangle) (l : Line) : Bool :=
  (l.p0 == t.q0 || l.p0 == t.q1 || l.p0 == t.q2) &&
  (l.p1 == t.q0 || l.p1 == t.q1 || l.p1 == t.q2)

/-- `func (t *Triangle) shareLineWith(s *Triangle) bool`: `t` contains
one of `s`'s three edges. -/
def Triangle.shareLineWith (t s : Triangle) : Bool :=
  (List.range 3).any fun i => t.contains (s.edge i)

/-- The interval-overlap test performed by `collidesWith` on one
separating axis (the four half-open comparisons of the source, lines
199–202 of `main.go`). -/
def overlapCond (mn1 mx1 mn2 mx2 : ℚ) : Bool :=
  (decide (mn2 ≤ mn1) && decide (mn1 < mx2)) ||
  (decide (mn2 < mx1) && decide (mx1 ≤ mx2)) ||
  (decide (mn1 ≤ mn2) && decide (mn2 < mx1)) ||
  (decide (mn1 < mx2) && decide (mx2 ≤ mx1))

/-- One pass of the separating-axis test of
`func (t *Triangle) collidesWith(s *Triangle) bool`: the three axes
taken from `t1`'s edges, each projecting `t1`'s two non-edge-parallel
vertices and `t2`'s three vertices.  The source divides the axis by its
norm (`sep = sep.div(sep.norm())`); scaling every projection by the
same positive factor does not change any of the comparisons, so the
rational model omits the division (see `overlapCond_smul`). -/
def satPhase (t1 t2 : Triangle) : Bool :=
  (List.range 3).all fun i =>
    let v := (t1.v (i + 1)).sub (t1.v i)
    let sep : Point := ⟨v.y, -v.x⟩
    let t1p1 := sep.innerProd (t1.v i)
    let t1p2 := sep.innerProd (t1.v (i + 2))
    let t1pMin := min t1p1 t1p2
    let t1pMax := max t1p1 t1p2
    let t2p1 := sep.innerProd t2.q0
    let t2p2 := sep.innerProd t2.q1
    let t2p3 := sep.innerProd t2.q2
    let t2pMin := min (min t2p1 t2p2) t2p3
    let t2pMax := max (max t2p1 t2p2) t2p3
    overlapCond t1pMin t1pMax t2pMin t2pMax

/-- `func (t *Triangle) collidesWith(s *Triangle) bool`: the full
separating-axis test; the source's `ts := []*Triangle{t, s, t}` loop is
the conjunction of the two phases. -/
def Triangle.collidesWith (t s : Triangle) : Bool :=
  satPhase t s && satPhase s t

/-- The rational form of the interior-angle rejection test of
`extendLine` / `getNewTrianglesFromExistingPoints`:
`cos := v1.innerProd(v2) / v1.norm() / v2.norm(); cos > math.Cos(math.Pi/6)`.
Since `cos(π/6) = √3/2 > 0`, the comparison holds iff the inner product
is positive and `4·dot² > 3·|v1|²·|v2|²` (see `cosTooLarge_iff`). -/
def cosTooLarge (v1 v2 : Point) : Bool :=
  decide (0 < v1.innerProd v2) &&
  decide (3 * v1.normSq * v2.normSq < 4 * v1.innerProd v2 ^ 2)

/-- The three-vertex minimum-angle rejection loop shared by `extendLine`
(lines 958–965) and `getNewTrianglesFromExistingPoints` (lines
1029–1036): some interior angle is strictly less than 30°. -/
def hasTooSmallAngle (t : Triangle) : Bool :=
  (List.range 3).any fun i =>
    cosTooLarge ((t.v (i + 1)).sub (t.v i)) ((t.v (i + 2)).sub (t.v i))

/-- The stream of oracle-supplied raw candidate points standing for the
source's seeded pseudo-random draws: `extendLine` consumes exactly one
per call (one `NormFloat64` each), so a run is a deterministic function
of the stream and the seed triangle. -/
abbrev RandPoints := ℕ → Point

/-- The sort center `Point{x: screenWidth / 2, y: screenHeight / 2}` of
`findLinesToExtend`. -/
def extendCenter : Point := ⟨screenWidth / 2, screenHeight / 2⟩

/-- The frontier-edge scan of `findLinesToExtend` (lines 866–911): every
edge of every triangle, kept iff it is contained in at most one triangle
of the mesh and no `equals`-equal edge was already collected, paired
with `trs[0]`, then sorted by squared distance of its line from the
screen center.  (`trs` always contains the scanned triangle itself, so
the `headD` default is never used; Go's unstable `sort.Slice` is
modelled by insertion sort on the same key.) -/
def findLinesToExtend (triangles : List Triangle) : List (Line × Triangle) :=
  let collected := triangles.foldl (fun acc t =>
    (List.range 3).foldl (fun acc i =>
      let l := t.edge i
      let trs := triangles.filter (fun tr => tr.contains l)
      if 1 < trs.length then acc
      else if acc.any (fun item => item.1.equals l) then acc
      else acc ++ [(l, trs.headD t)]) acc) []
  List.insertionSort
    (fun a b => a.1.distanceSq extendCenter ≤ b.1.distanceSq extendCenter) collected

/-- The clamping of the new vertex into the screen (lines 934–937):
`x ∈ [5, screenWidth−5]`, `y ∈ [5, screenHeight−120]`. -/
def clampToScreen (p : Point) : Point :=
  ⟨min (max p.x 5) (screenWidth - 5), min (max p.y 5) (screenHeight - 120)⟩

/-- `extendLine` (lines 913–968).  The source draws
`theta := π/3 + π/4·NormFloat64()`, flips its sign when the `pair`'s
third vertex lies on the positive side, and computes
`raw := line[0].add(v.rotate(theta).div(v.norm()).mul(100.0))`; that
irrational construction is the oracle-supplied `raw` here (the `pair`
argument only feeds the sign flip in the source).  The candidate is
clamped, then rejected if it `equals` or `collidesWith` any existing
triangle, or has an interior angle below 30°. -/
def extendLine (triangles : List Triangle) (line : Line) (pair : Triangle)
    (raw : Point) : Option Triangle :=
  let newPoint := clampToScreen raw
  let triangle : Triangle := ⟨line.p0, line.p1, newPoint⟩
  if triangles.any (fun t => t.equals triangle || t.collidesWith triangle) then none
  else if hasTooSmallAngle triangle then none
  else some triangle

/-- The candidate-forming step of `getNewTrianglesFromExistingPoints`
(lines 979–1011): skip `equals`-equal edges, then join two edges sharing
one endpoint into a triangle unless the angle between them is obtuse
(the source compares `cos < 0`, and the sign of
`dot/(|v1|·|v2|)` is the sign of the inner product).  Note the source
has no case for `l1[1] == l2[1]`; such pairs fall through to the final
`continue`. -/
def infillCandidate (l1 l2 : Line) : Option Triangle :=
  if l1.equals l2 then none
  else if l1.p0 == l2.p0 then
    if (l1.p1.sub l1.p0).innerProd (l2.p1.sub l2.p0) < 0 then none
    else some ⟨l1.p0, l1.p1, l2.p1⟩
  else if l1.p0 == l2.p1 then
    if (l1.p1.sub l1.p0).innerProd (l2.p0.sub l2.p1) < 0 then none
    else some ⟨l1.p0, l1.p1, l2.p0⟩
  else if l1.p1 == l2.p0 then
    if (l1.p0.sub l1.p1).innerProd (l2.p1.sub l2.p0) < 0 then none
    else some ⟨l1.p1, l1.p0, l2.p1⟩
  else none

/-- All ordered edge pairs scanned by the four nested loops of
`getNewTrianglesFromExistingPoints`, in source order. -/
def infillQuads (triangles : List Triangle) : List (Line × Line) :=
  triangles.flatMap fun t1 => (List.range 3).flatMap fun i =>
    triangles.flatMap fun t2 => (List.range 3).map fun j => (t1.edge i, t2.edge j)

/-- The sequential body of `getNewTrianglesFromExistingPoints`: each
candidate is dropped when it `equals` or `collidesWith` any existing or
already-proposed triangle; if a surviving candidate fails the
minimum-angle check the whole pass aborts with the `nil` sentinel
(`none`). -/
def infillGo (triangles : List Triangle) :
    List (Line × Line) → List Triangle → Option (List Triangle)
  | [], acc => some acc
  | (l1, l2) :: rest, acc =>
    match infillCandidate l1 l2 with
    | none => infillGo triangles rest acc
    | some cand =>
      if (triangles ++ acc).any (fun t => t.equals cand || t.collidesWith cand) then
        infillGo triangles rest acc
      else if hasTooSmallAngle cand then none
      else infillGo triangles rest (acc ++ [cand])

/-- `getNewTrianglesFromExistingPoints` (lines 970–1045). -/
def getNewTrianglesFromExistingPoints (triangles : List Triangle) :
    Option (List Triangle) :=
  infillGo triangles (infillQuads triangles) []

/-- The 3-attempt retry loop (`for retry := 0; retry < 3; retry++`) for
one frontier edge; each attempt consumes one stream draw. -/
def tryRetries (stream : RandPoints) (triangles : List Triangle) (line : Line)
    (pair : Triangle) : ℕ → ℕ → Option Triangle × ℕ
  | idx, 0 => (none, idx)
  | idx, r + 1 =>
    match extendLine triangles line pair (stream idx) with
    | some t => (some t, idx + 1)
    | none => tryRetries stream triangles line pair (idx + 1) r

/-- The fallback across frontier edges (lines 1059–1070): try each
sorted frontier edge in turn until one extension succeeds. -/
def tryEdges (stream : RandPoints) (triangles : List Triangle) :
    List (Line × Triangle) → ℕ → Option Triangle × ℕ
  | [], idx => (none, idx)
  | (l, pr) :: rest, idx =>
    match tryRetries stream triangles l pr idx 3 with
    | (some t, idx1) => (some t, idx1)
    | (none, idx1) => tryEdges stream triangles rest idx1

/-- Result of one iteration of the growth loop: `done` when the source
executes `break` (the function returns), `again` when it executes
`continue` or falls through to the next iteration. -/
inductive GrowStep where
  | done : List Triangle → GrowStep
  | again : List Triangle → ℕ → GrowStep
deriving DecidableEq, Repr

/-- One iteration of the `for {}` loop of `generateTriangles` (lines
1048–1086): stop once the mesh exceeds the cap or has no frontier edge;
on total extension failure retry (below 10 triangles) or stop; after a
successful extension run the infill pass, backtracking to the seed
(`triangles[:1]`) when it signals impossibility. -/
def genRound (stream : RandPoints) (triangles : List Triangle) (idx : ℕ) : GrowStep :=
  if maxTriangleNum < triangles.length then .done triangles
  else
    let lines := findLinesToExtend triangles
    if lines.isEmpty then .done triangles
    else
      match tryEdges stream triangles lines idx with
      | (none, idx1) =>
        if triangles.length < 10 then .again triangles idx1 else .done triangles
      | (some t, idx1) =>
        let triangles1 := triangles ++ [t]
        match getNewTrianglesFromExistingPoints triangles1 with
        | none => .again (triangles1.take 1) idx1
        | some news => .again (triangles1 ++ news) idx1

/-- The growth loop, indexed by fuel since the source's loop has no
structural bound: the Boolean is `true` when the source's `break` was
reached within `fuel` iterations (the function returned) and `false`
when the fuel ran out mid-loop, in which case the current working list
is reported. -/
def genLoop (stream : RandPoints) : ℕ → List Triangle → ℕ → List Triangle × Bool
  | 0, triangles, _ => (triangles, false)
  | fuel + 1, triangles, idx =>
    match genRound stream triangles idx with
    | .done res => (res, true)
    | .again tris1 idx1 => genLoop stream fuel tris1 idx1

/-- `Game.generateTriangles` (lines 865–1089), starting from
`triangles := []Triangle{*seed}` and stream position 0. -/
def generateTriangles (stream : RandPoints) (fuel : ℕ) (seed : Triangle) :
    List Triangle × Bool :=
  genLoop stream fuel [seed] 0

/-- The fixed seed triangle `t0` of `Game.initialize` (lines 1184–1188):
`(320, 192), (256, 288), (384, 288)`. -/
def seedTriangle : Triangle :=
  ⟨⟨1 * screenWidth / 2, 2 * screenHeight / 5⟩,
   ⟨2 * screenWidth / 5, 3 * screenHeight / 5⟩,
   ⟨3 * screenWidth / 5, 3 * screenHeight / 5⟩⟩

/-- The `lineExists` helper of `getLinesWithDrawOrder` (lines
1101–1115): the line already occurs (up to order-independent equality)
in an earlier layer or among the lines of the layer being built. -/
def lineExistsIn (line : Line) (linesList : List (List Line)) (newLines : List Line) : Bool :=
  linesList.any (fun ls => ls.any (fun l => l.equals line)) ||
  newLines.any (fun l => l.equals line)

/-- One round of the reveal-order loop (lines 1117–1140): scan every
area, vertex index and line of the most recent layer; whenever the
line's second endpoint equals the vertex, add the two incident edges of
that area unless they already exist. -/
def linesRound (areas : List Triangle) (linesList : List (List Line)) : List Line :=
  let lines := linesList.getLastD []
  areas.foldl (fun newLines a =>
    (List.range 3).foldl (fun newLines i =>
      lines.foldl (fun newLines line =>
        if line.p1 == a.v i then
          let l1 : Line := ⟨a.v i, a.v (i + 1)⟩
          let l2 : Line := ⟨a.v i, a.v (i + 2)⟩
          let newLines1 :=
            if lineExistsIn l1 linesList newLines then newLines else newLines ++ [l1]
          if lineExistsIn l2 linesList newLines1 then newLines1 else newLines1 ++ [l2]
        else newLines) newLines) newLines) []

/-- The reveal-order loop with fuel: the source iterates until a round
adds no new line; every placed line is a distinct mesh edge, so
`3·(number of areas) + 1` rounds always suffice (proved below). -/
def buildLayers (areas : List Triangle) : ℕ → List (List Line) → List (List Line)
  | 0, acc => acc
  | fuel + 1, acc =>
    let nl := linesRound areas acc
    if nl.isEmpty then acc else buildLayers areas fuel (acc ++ [nl])

/-- `Game.getLinesWithDrawOrder` (lines 1091–1143): layer 0 is the
first area's three edges (the source indexes `areas[0]` and is never
called with an empty mesh), further layers come from `linesRound`. -/
def getLinesWithDrawOrder (areas : List Triangle) : List (List Line) :=
  match areas with
  | [] => []
  | t0 :: _ =>
    buildLayers areas (3 * areas.length + 1)
      [[⟨t0.q0, t0.q1⟩, ⟨t0.q1, t0.q2⟩, ⟨t0.q2, t0.q0⟩]]

/-- Area status, from `type AreaStatus int` (`Initial`/`OK`/`NG`). -/
inductive AreaStatus where
  | initial : AreaStatus
  | ok : AreaStatus
  | ng : AreaStatus
deriving DecidableEq, Repr

/-- The adjacency builder of `Game.initialize` (lines 1197–1208): for
every area, the indices `j` (ascending) of the areas that are not
`equals`-equal and share a full edge; Go's non-owning pointers are
modelled as indices. -/
def buildAdjacents (triangles : List Triangle) : List (List ℕ) :=
  triangles.map fun a =>
    (List.range triangles.length).filter fun j =>
      match triangles[j]? with
      | some b => !a.equals b && a.shareLineWith b
      | none => false

/-- The per-area status computation of the playing-mode update (lines
515–531): `Initial` while uncolored, else `NG` iff some adjacent area
has the same color, else `OK`. -/
def areaStatusOf (colors : List ℤ) (adjacents : List ℕ) (c : ℤ) : AreaStatus :=
  if c = -1 then .initial
  else if adjacents.any (fun j => colors.getD j (-1) == c) then .ng
  else .ok

/-- The full per-step status pass over the mesh: the adjacency is the
one built at initialization from the triangles, the colors are the
externally mutated per-area colors (index-aligned). -/
def updateStatuses (triangles : List Triangle) (colors : List ℤ) : List AreaStatus :=
  let adj := buildAdjacents triangles
  (List.range triangles.length).map fun i =>
    areaStatusOf colors (adj.getD i []) (colors.getD i (-1))

/-- The `allOK` accumulator of the same loop: every area ended the pass
with status `OK`. -/
def allAreasOK (triangles : List Triangle) (colors : List ℤ) : Bool :=
  (updateStatuses triangles colors).all (fun s => s == .ok)

/-- The tap handler of the playing mode (lines 449–479): walk the areas
in order; the first one whose triangle strictly covers the tap point
has its color advanced by `(color + 1) % 4` (Go's `%` is the truncated
remainder, `Int.tmod`) and the scan stops (`break`); all other areas
are untouched. -/
def tapAreas (areas : List (Triangle × ℤ)) (pos : Point) : List (Triangle × ℤ) :=
  match areas with
  | [] => []
  | (t, c) :: rest =>
    if t.covers pos then (t, (c + 1).tmod 4) :: rest
    else (t, c) :: tapAreas rest pos

/-! ## Strict evaluation twins

The definitions above mirror the Go source directly; for concrete runs
of the generator the proof checker evaluates them by repeated
unfolding, re-reducing shared subterms.  The `…S` functions below are
semantically identical twins (proved equal below) that force each
intermediate rational to a normalized literal exactly once, so that a
concrete growth run can be checked by evaluation.  All claims are
stated against the original definitions; the twins enter proofs only
through the `…_eq` equations. -/

/-- Evaluate a rational to its literal and continue; `forceQ x f = f x`
(see `forceQ_eq`). -/
def forceQ {α : Type} (x : ℚ) (f : ℚ → α) : α :=
  match x with
  | ⟨n, d, h1, h2⟩ => f ⟨n, d, h1, h2⟩

/-- Evaluate both coordinates of a point; `forceP p f = f p`. -/
def forceP {α : Type} (p : Point) (f : Point → α) : α :=
  forceQ p.x fun x => forceQ p.y fun y => f ⟨x, y⟩

/-- Evaluate all three vertices of a triangle; `forceT t f = f t`. -/
def forceT {α : Type} (t : Triangle) (f : Triangle → α) : α :=
  forceP t.q0 fun a => forceP t.q1 fun b => forceP t.q2 fun c => f ⟨a, b, c⟩

/-- Strict twin of `satPhase`. -/
def satPhaseS (t1 t2 : Triangle) : Bool :=
  (List.range 3).all fun i =>
    forceP ((t1.v (i + 1)).sub (t1.v i)) fun v =>
    forceP ⟨v.y, -v.x⟩ fun sep =>
    forceQ (sep.innerProd (t1.v i)) fun t1p1 =>
    forceQ (sep.innerProd (t1.v (i + 2))) fun t1p2 =>
    forceQ (min t1p1 t1p2) fun t1pMin =>
    forceQ (max t1p1 t1p2) fun t1pMax =>
    forceQ (sep.innerProd t2.q0) fun t2p1 =>
    forceQ (sep.innerProd t2.q1) fun t2p2 =>
    forceQ (sep.innerProd t2.q2) fun t2p3 =>
    forceQ (min (min t2p1 t2p2) t2p3) fun t2pMin =>
    forceQ (max (max t2p1 t2p2) t2p3) fun t2pMax =>
    overlapCond t1pMin t1pMax t2pMin t2pMax

/-- Strict twin of `Triangle.collidesWith`. -/
def collidesWithS (t s : Triangle) : Bool := satPhaseS t s && satPhaseS s t

/-- Strict twin of `cosTooLarge`. -/
def cosTooLargeS (v1 v2 : Point) : Bool :=
  forceQ (v1.innerProd v2) fun dot =>
  decide (0 < dot) && decide (3 * v1.normSq * v2.normSq < 4 * dot ^ 2)

/-- Strict twin of `hasTooSmallAngle`. -/
def hasTooSmallAngleS (t : Triangle) : Bool :=
  (List.range 3).any fun i =>
    cosTooLargeS ((t.v (i + 1)).sub (t.v i)) ((t.v (i + 2)).sub (t.v i))

/-- Strict twin of `extendLine`. -/
def extendLineS (triangles : List Triangle) (line : Line) (pair : Triangle)
    (raw : Point) : Option Triangle :=
  forceP (clampToScreen raw) fun newPoint =>
  forceT ⟨line.p0, line.p1, newPoint⟩ fun triangle =>
  if triangles.any (fun t => t.equals triangle || collidesWithS t triangle) then none
  else if hasTooSmallAngleS triangle then none
  else some triangle

/-- Strict twin of `infillGo`. -/
def infillGoS (triangles : List Triangle) :
    List (Line × Line) → List Triangle → Option (List Triangle)
  | [], acc => some acc
  | (l1, l2) :: rest, acc =>
    match infillCandidate l1 l2 with
    | none => infillGoS triangles rest acc
    | some cand0 =>
      forceT cand0 fun cand =>
      if (triangles ++ acc).any (fun t => t.equals cand || collidesWithS t cand) then
        infillGoS triangles rest acc
      else if hasTooSmallAngleS cand then none
      else infillGoS triangles rest (acc ++ [cand])

/-- Strict twin of `getNewTrianglesFromExistingPoints`. -/
def getNewTrianglesS (triangles : List Triangle) : Option (List Triangle) :=
  infillGoS triangles (infillQuads triangles) []

/-- Strict twin of `tryRetries`. -/
def tryRetriesS (stream : RandPoints) (triangles : List Triangle) (line : Line)
    (pair : Triangle) : ℕ → ℕ → Option Triangle × ℕ
  | idx, 0 => (none, idx)
  | idx, r + 1 =>
    match extendLineS triangles line pair (stream idx) with
    | some t => (some t, idx + 1)
    | none => tryRetriesS stream triangles line pair (idx + 1) r

/-- Strict twin of `tryEdges`. -/
def tryEdgesS (stream : RandPoints) (triangles : List Triangle) :
    List (Line × Triangle) → ℕ → Option Triangle × ℕ
  | [], idx => (none, idx)
  | (l, pr) :: rest, idx =>
    match tryRetriesS stream triangles l pr idx 3 with
    | (some t, idx1) => (some t, idx1)
    | (none, idx1) => tryEdgesS stream triangles rest idx1

/-- Strict twin of `genRound`. -/
def genRoundS (stream : RandPoints) (triangles : List Triangle) (idx : ℕ) : GrowStep :=
  if maxTriangleNum < triangles.length then .done triangles
  else
    let lines := findLinesToExtend triangles
    if lines.isEmpty then .done triangles
    else
      match tryEdgesS stream triangles lines idx with
      | (none, idx1) =>
        if triangles.length < 10 then .again triangles idx1 else .done triangles
      | (some t, idx1) =>
        let triangles1 := triangles ++ [t]
        match getNewTrianglesS triangles1 with
        | none => .again (triangles1.take 1) idx1
        | some news => .again (triangles1 ++ news) idx1

/-- Strict twin of `genLoop`. -/
def genLoopS (stream : RandPoints) : ℕ → List Triangle → ℕ → List Triangle × Bool
  | 0, triangles, _ => (triangles, false)
  | fuel + 1, triangles, idx =>
    match genRoundS stream triangles idx with
    | .done res => (res, true)
    | .again tris1 idx1 => genLoopS stream fuel tris1 idx1

theorem forceQ_eq {α : Type} (x : ℚ) (f : ℚ → α) : forceQ x f = f x := by
  cases x
  rfl

theorem forceP_eq {α : Type} (p : Point) (f : Point → α) : forceP p f = f p := by
  cases p
  simp [forceP, forceQ_eq]

theorem forceT_eq {α : Type} (t : Triangle) (f : Triangle → α) : forceT t f = f t := by
  cases t
  simp [forceT, forceP_eq]

theorem satPhaseS_eq : satPhaseS = satPhase := by
  funext t1 t2
  simp only [satPhaseS, satPhase, forceQ_eq, forceP_eq]

theorem collidesWithS_eq (t s : Triangle) : collidesWithS t s = t.collidesWith s := by
  simp [collidesWithS, Triangle.collidesWith, satPhaseS_eq]

theorem cosTooLargeS_eq (v1 v2 : Point) : cosTooLargeS v1 v2 = cosTooLarge v1 v2 := by
  simp [cosTooLargeS, cosTooLarge, forceQ_eq]

theorem hasTooSmallAngleS_eq (t : Triangle) : hasTooSmallAngleS t = hasTooSmallAngle t := by
  simp [hasTooSmallAngleS, hasTooSmallAngle, cosTooLargeS_eq]

theorem extendLineS_eq (triangles : List Triangle) (line : Line) (pair : Triangle)
    (raw : Point) : extendLineS triangles line pair raw = extendLine triangles line pair raw := by
  simp only [extendLineS, extendLine, forceP_eq, forceT_eq, collidesWithS_eq,
    hasTooSmallAngleS_eq]

theorem infillGoS_eq (triangles : List Triangle) (qs : List (Line × Line)) :
    ∀ acc, infillGoS triangles qs acc = infillGo triangles qs acc := by
  induction qs with
  | nil => intro acc; rfl
  | cons q rest ih =>
    intro acc
    obtain ⟨l1, l2⟩ := q
    simp only [infillGoS, infillGo, forceT_eq, collidesWithS_eq, hasTooSmallAngleS_eq]
    cases infillCandidate l1 l2 with
    | none => exact ih acc
    | some cand =>
      simp only [forceT_eq, collidesWithS_eq, hasTooSmallAngleS_eq]
      cases (triangles ++ acc).any (fun t => t.equals cand || t.collidesWith cand) with
      | true => simp [ih]
      | false =>
        cases hasTooSmallAngle cand with
        | true => simp
        | false => simp [ih]

theorem getNewTrianglesS_eq (triangles : List Triangle) :
    getNewTrianglesS triangles = getNewTrianglesFromExistingPoints triangles := by
  simp [getNewTrianglesS, getNewTrianglesFromExistingPoints, infillGoS_eq]

theorem tryRetriesS_eq (stream : RandPoints) (triangles : List Triangle) (line : Line)
    (pair : Triangle) : ∀ r idx,
    tryRetriesS stream triangles line pair idx r = tryRetries stream triangles line pair idx r := by
  intro r
  induction r with
  | zero => intro idx; rfl
  | succ n ih =>
    intro idx
    simp only [tryRetriesS, tryRetries, extendLineS_eq]
    cases extendLine triangles line pair (stream idx) with
    | none => simp [ih]
    | some t => rfl

theorem tryEdgesS_eq (stream : RandPoints) (triangles : List Triangle) :
    ∀ lines idx, tryEdgesS stream triangles lines idx = tryEdges stream triangles lines idx := by
  intro lines
  induction lines with
  | nil => intro idx; rfl
  | cons x rest ih =>
    intro idx
    obtain ⟨l, pr⟩ := x
    simp only [tryEdgesS, tryEdges, tryRetriesS_eq]
    cases tryRetries stream triangles l pr idx 3 with
    | mk first second =>
      cases first with
      | none => simp [ih]
      | some t => rfl

theorem genRoundS_eq (stream : RandPoints) (triangles : List Triangle) (idx : ℕ) :
    genRoundS stream triangles idx = genRound stream triangles idx := by
  simp only [genRoundS, genRound, tryEdgesS_eq, getNewTrianglesS_eq]

theorem genLoopS_eq (stream : RandPoints) :
    ∀ fuel triangles idx, genLoopS stream fuel triangles idx = genLoop stream fuel triangles idx := by
  intro fuel
  induction fuel with
  | zero => intro triangles idx; rfl
  | succ n ih =>
    intro triangles idx
    simp only [genLoopS, genLoop, genRoundS_eq]
    cases genRound stream triangles idx with
    | done res => rfl
    | again tris1 idx1 => simp [ih]

/-! ## Coloring validator (C7), tap handler (C10), determinism (C9) -/

theorem areaStatusOf_ng_iff (colors : List ℤ) (adj : List ℕ) (c : ℤ) :
    areaStatusOf colors adj c = .ng ↔
      (c ≠ -1 ∧ ∃ j ∈ adj, colors.getD j (-1) = c) := by
  unfold areaStatusOf
  by_cases h : c = -1
  · rw [if_pos h]
    constructor
    · intro hcon; cases hcon
    · rintro ⟨hc, _⟩; exact absurd h hc
  · rw [if_neg h]
    by_cases h2 : adj.any (fun j => colors.getD j (-1) == c) = true
    · rw [if_pos h2]
      simp only [List.any_eq_true, beq_iff_eq] at h2
      exact ⟨fun _ => ⟨h, h2⟩, fun _ => rfl⟩
    · rw [if_neg h2]
      simp only [List.any_eq_true, beq_iff_eq] at h2
      constructor
      · intro hcon; cases hcon
      · rintro ⟨_, j, hj, he⟩
        exact absurd ⟨j, hj, he⟩ h2

theorem areaStatusOf_ok_iff (colors : List ℤ) (adj : List ℕ) (c : ℤ) :
    areaStatusOf colors adj c = .ok ↔
      (c ≠ -1 ∧ ∀ j ∈ adj, colors.getD j (-1) ≠ c) := by
  unfold areaStatusOf
  by_cases h : c = -1
  · rw [if_pos h]
    constructor
    · intro hcon; cases hcon
    · rintro ⟨hc, _⟩; exact absurd h hc
  · rw [if_neg h]
    by_cases h2 : adj.any (fun j => colors.getD j (-1) == c) = true
    · rw [if_pos h2]
      simp only [List.any_eq_true, beq_iff_eq] at h2
      obtain ⟨j, hj, he⟩ := h2
      constructor
      · intro hcon; cases hcon
      · rintro ⟨_, hall⟩
        exact absurd he (hall j hj)
    · rw [if_neg h2]
      simp only [List.any_eq_true, beq_iff_eq] at h2
      constructor
      · intro _
        refine ⟨h, ?_⟩
        intro j hj he
        exact h2 ⟨j, hj, he⟩
      · intro _
        rfl

theorem buildAdjacents_getElem (triangles : List Triangle) (i : ℕ)
    (hi : i < triangles.length) (j : ℕ) :
    (j ∈ (buildAdjacents triangles).getD i []) ↔
      (∃ hj : j < triangles.length,
        (triangles[i].equals triangles[j]) = false ∧
        (triangles[i].shareLineWith triangles[j]) = true) := by
  have hlen : (buildAdjacents triangles).length = triangles.length := by
    simp [buildAdjacents]
  have hgd : (buildAdjacents triangles).getD i [] = (buildAdjacents triangles).get ⟨i, hlen ▸ hi⟩ := by
    rw [List.getD_eq_getElem?_getD, List.getElem?_eq_getElem (hlen ▸ hi)]
    rfl
  rw [hgd]
  simp only [List.get_eq_getElem]
  simp only [buildAdjacents, List.getElem_map, List.mem_filter, List.mem_range]
  constructor
  · rintro ⟨hj, hpred⟩
    refine ⟨hj, ?_⟩
    rw [List.getElem?_eq_getElem hj] at hpred
    simp only [Bool.and_eq_true, Bool.not_eq_true'] at hpred
    exact hpred
  · rintro ⟨hj, h1, h2⟩
    refine ⟨hj, ?_⟩
    rw [List.getElem?_eq_getElem hj]
    simp [h1, h2]

theorem updateStatuses_getElem (triangles : List Triangle) (colors : List ℤ) (i : ℕ)
    (hi : i < triangles.length) :
    (updateStatuses triangles colors)[i]? =
      some (areaStatusOf colors ((buildAdjacents triangles).getD i []) (colors.getD i (-1))) := by
  unfold updateStatuses
  rw [List.getElem?_map, List.getElem?_range hi]
  rfl

/-- C7: the per-step validator marks an area conflicting (`NG`) iff its
color is set and some edge-adjacent area carries the same color; an
uncolored area is never conflicting; and the global `allOK` predicate
holds iff every area is colored and none conflicts with a neighbour. -/
theorem coloring_validator_spec (triangles : List Triangle) (colors : List ℤ) (i : ℕ)
    (hi : i < triangles.length) :
    ((updateStatuses triangles colors)[i]? = some .ng ↔
      (colors.getD i (-1) ≠ -1 ∧ ∃ j, ∃ hj : j < triangles.length,
        (triangles[i].equals triangles[j]) = false ∧
        (triangles[i].shareLineWith triangles[j]) = true ∧
        colors.getD j (-1) = colors.getD i (-1))) ∧
    (colors.getD i (-1) = -1 → (updateStatuses triangles colors)[i]? = some .initial) ∧
    (allAreasOK triangles colors = true ↔
      ∀ k, (hk : k < triangles.length) → colors.getD k (-1) ≠ -1 ∧
        ∀ j, (hj : j < triangles.length) →
          (triangles[k].equals triangles[j]) = false →
          (triangles[k].shareLineWith triangles[j]) = true →
          colors.getD j (-1) ≠ colors.getD k (-1)) := by
  refine ⟨?_, ?_, ?_⟩
  · rw [updateStatuses_getElem triangles colors i hi, Option.some_inj, areaStatusOf_ng_iff]
    constructor
    · rintro ⟨hc, j, hja, he⟩
      obtain ⟨hj, h1, h2⟩ := (buildAdjacents_getElem triangles i hi j).mp hja
      exact ⟨hc, j, hj, h1, h2, he⟩
    · rintro ⟨hc, j, hj, h1, h2, he⟩
      exact ⟨hc, j, (buildAdjacents_getElem triangles i hi j).mpr ⟨hj, h1, h2⟩, he⟩
  · intro hc
    rw [updateStatuses_getElem triangles colors i hi, Option.some_inj]
    unfold areaStatusOf
    rw [if_pos hc]
  · unfold allAreasOK
    rw [List.all_eq_true]
    constructor
    · intro hall k hk
      have hok := hall _ (List.getElem?_mem (updateStatuses_getElem triangles colors k hk))
      rw [beq_iff_eq] at hok
      obtain ⟨hc, hadj⟩ := (areaStatusOf_ok_iff _ _ _).mp hok
      refine ⟨hc, ?_⟩
      intro j hj h1 h2 he
      exact hadj j ((buildAdjacents_getElem triangles k hk j).mpr ⟨hj, h1, h2⟩) he
    · intro hptwise s hs
      rw [beq_iff_eq]
      unfold updateStatuses at hs
      rw [List.mem_map] at hs
      obtain ⟨k, hkr, hkeq⟩ := hs
      rw [List.mem_range] at hkr
      obtain ⟨hc, hadj⟩ := hptwise k hkr
      rw [← hkeq, areaStatusOf_ok_iff]
      refine ⟨hc, ?_⟩
      intro j hja he
      obtain ⟨hj, h1, h2⟩ := (buildAdjacents_getElem triangles k hkr j).mp hja
      exact hadj j hj h1 h2 he

theorem tapAreas_length (areas : List (Triangle × ℤ)) (pos : Point) :
    (tapAreas areas pos).length = areas.length := by
  induction areas with
  | nil => rfl
  | cons a rest ih =>
    obtain ⟨t, c⟩ := a
    unfold tapAreas
    by_cases h : t.covers pos = true
    · rw [if_pos h]
      simp
    · rw [if_neg h]
      simpa using ih

theorem tapAreas_pointwise (pos : Point) :
    ∀ (areas : List (Triangle × ℤ)) (i : ℕ),
    (tapAreas areas pos)[i]? =
      if i = areas.findIdx (fun a => a.1.covers pos) then
        (areas[i]?).map (fun a => (a.1, (a.2 + 1).tmod 4))
      else areas[i]? := by
  intro areas
  induction areas with
  | nil =>
    intro i
    simp [tapAreas]
  | cons a rest ih =>
    intro i
    obtain ⟨t, c⟩ := a
    unfold tapAreas
    by_cases h : t.covers pos = true
    · rw [if_pos h]
      rw [List.findIdx_cons]
      simp only [h, cond_true]
      cases i with
      | zero => simp
      | succ n => simp
    · rw [if_neg h]
      rw [List.findIdx_cons]
      have h' : t.covers pos = false := by
        cases hc : t.covers pos
        · rfl
        · exact absurd hc h
      simp only [h', cond_false]
      cases i with
      | zero =>
        simp
      | succ n =>
        have := ih n
        simp only [List.getElem?_cons_succ]
        rw [this]
        by_cases he : n = rest.findIdx (fun a => a.1.covers pos)
        · rw [if_pos he, if_pos (by omega)]
        · rw [if_neg he, if_neg (by omega)]

/-- C10: a tap changes at most one area — the first in insertion order
whose triangle strictly covers the tap point — advancing its color by
`(c+1) % 4` (Go truncated remainder); all other areas are untouched,
colors stay in `{-1,0,1,2,3}`, and a color in `{0,1,2,3}` never returns
to `-1`. -/
theorem tap_frame_spec (areas : List (Triangle × ℤ)) (pos : Point) :
    ((tapAreas areas pos).length = areas.length) ∧
    (∀ i, i ≠ areas.findIdx (fun a => a.1.covers pos) →
      (tapAreas areas pos)[i]? = areas[i]?) ∧
    (∀ i, i = areas.findIdx (fun a => a.1.covers pos) →
      (tapAreas areas pos)[i]? = (areas[i]?).map (fun a => (a.1, (a.2 + 1).tmod 4))) ∧
    (∀ i, (hi : i < areas.length) → -1 ≤ (areas[i]).2 → (areas[i]).2 ≤ 3 →
      ∃ d, (tapAreas areas pos)[i]? = some d ∧
        -1 ≤ d.2 ∧ d.2 ≤ 3 ∧ (0 ≤ (areas[i]).2 → 0 ≤ d.2) ∧
        (d = areas[i] ∨ (d.1 = (areas[i]).1 ∧ d.2 = ((areas[i]).2 + 1).tmod 4))) := by
  have hmod : ∀ c : ℤ, -1 ≤ c → 0 ≤ (c + 1).tmod 4 ∧ (c + 1).tmod 4 ≤ 3 := by
    intro c hc
    have h0 : 0 ≤ c + 1 := by omega
    rw [Int.tmod_eq_emod h0 (by omega)]
    constructor
    · exact Int.emod_nonneg _ (by omega)
    · have := @Int.emod_lt_of_pos (c + 1) 4 (by omega)
      omega
  refine ⟨tapAreas_length areas pos, ?_, ?_, ?_⟩
  · intro i hne
    rw [tapAreas_pointwise pos areas i, if_neg hne]
  · intro i heq
    rw [tapAreas_pointwise pos areas i, if_pos heq]
  · intro i hi hlo hhi
    have hp := tapAreas_pointwise pos areas i
    by_cases heq : i = areas.findIdx (fun a => a.1.covers pos)
    · rw [if_pos heq] at hp
      rw [List.getElem?_eq_getElem hi] at hp
      refine ⟨((areas[i]).1, ((areas[i]).2 + 1).tmod 4), by simpa using hp, ?_, ?_, ?_, ?_⟩
      · have := (hmod (areas[i]).2 hlo).1
        omega
      · exact (hmod (areas[i]).2 hlo).2
      · intro _
        exact (hmod (areas[i]).2 hlo).1
      · right
        exact ⟨rfl, rfl⟩
    · rw [if_neg heq] at hp
      rw [List.getElem?_eq_getElem hi] at hp
      exact ⟨areas[i], hp, hlo, hhi, fun h => h, Or.inl rfl⟩

/-- C9: the generator is a deterministic function of the random stream
and the seed: two runs with pointwise-equal streams produce identical
results (in the embedding all pseudo-randomness is the explicit stream,
so no other source of nondeterminism exists). -/
theorem generateTriangles_deterministic (fuel : ℕ) (seed : Triangle)
    (s1 s2 : RandPoints) (h : ∀ n, s1 n = s2 n) :
    generateTriangles s1 fuel seed = generateTriangles s2 fuel seed := by
  have : s1 = s2 := funext h
  rw [this]

/-- A two-triangle mesh sharing one edge, for concrete instantiation. -/
def c7Tris : List Triangle :=
  [⟨⟨0, 0⟩, ⟨10, 0⟩, ⟨0, 10⟩⟩, ⟨⟨10, 0⟩, ⟨0, 10⟩, ⟨10, 10⟩⟩]

/-- Witness for `coloring_validator_spec` at a concrete two-triangle
mesh with both areas colored 0. -/
theorem coloring_validator_spec_witness :
    (0 : ℕ) < c7Tris.length ∧
    (((updateStatuses c7Tris [0, 0])[0]? = some .ng ↔
      (([0, 0] : List ℤ).getD 0 (-1) ≠ -1 ∧ ∃ j, ∃ hj : j < c7Tris.length,
        (c7Tris[0].equals c7Tris[j]) = false ∧
        (c7Tris[0].shareLineWith c7Tris[j]) = true ∧
        ([0, 0] : List ℤ).getD j (-1) = ([0, 0] : List ℤ).getD 0 (-1))) ∧
    (([0, 0] : List ℤ).getD 0 (-1) = -1 → (updateStatuses c7Tris [0, 0])[0]? = some .initial) ∧
    (allAreasOK c7Tris [0, 0] = true ↔
      ∀ k, (hk : k < c7Tris.length) → ([0, 0] : List ℤ).getD k (-1) ≠ -1 ∧
        ∀ j, (hj : j < c7Tris.length) →
          (c7Tris[k].equals c7Tris[j]) = false →
          (c7Tris[k].shareLineWith c7Tris[j]) = true →
          ([0, 0] : List ℤ).getD j (-1) ≠ ([0, 0] : List ℤ).getD k (-1))) :=
  ⟨by decide, coloring_validator_spec c7Tris [0, 0] 0 (by decide)⟩

/-- A one-area mesh with an uncolored area, for concrete instantiation. -/
def c10Areas : List (Triangle × ℤ) := [(⟨⟨0, 0⟩, ⟨10, 0⟩, ⟨0, 10⟩⟩, -1)]

/-- Witness for `tap_frame_spec` at a concrete one-area mesh tapped at
a covered point. -/
theorem tap_frame_spec_witness :
    ((tapAreas c10Areas ⟨3, 3⟩).length = c10Areas.length) ∧
    (∀ i, i ≠ c10Areas.findIdx (fun a => a.1.covers ⟨3, 3⟩) →
      (tapAreas c10Areas ⟨3, 3⟩)[i]? = c10Areas[i]?) ∧
    (∀ i, i = c10Areas.findIdx (fun a => a.1.covers ⟨3, 3⟩) →
      (tapAreas c10Areas ⟨3, 3⟩)[i]? = (c10Areas[i]?).map (fun a => (a.1, (a.2 + 1).tmod 4))) ∧
    (∀ i, (hi : i < c10Areas.length) → -1 ≤ (c10Areas[i]).2 → (c10Areas[i]).2 ≤ 3 →
      ∃ d, (tapAreas c10Areas ⟨3, 3⟩)[i]? = some d ∧
        -1 ≤ d.2 ∧ d.2 ≤ 3 ∧ (0 ≤ (c10Areas[i]).2 → 0 ≤ d.2) ∧
        (d = c10Areas[i] ∨ (d.1 = (c10Areas[i]).1 ∧ d.2 = ((c10Areas[i]).2 + 1).tmod 4))) :=
  tap_frame_spec c10Areas ⟨3, 3⟩

/-- A constant stream, for concrete instantiation. -/
def constStream : RandPoints := fun _ => ⟨0, 0⟩

/-- Witness for `generateTriangles_deterministic` at the reference seed
triangle and a concrete constant stream. -/
theorem generateTriangles_deterministic_witness :
    (∀ n, constStream n = constStream n) ∧
    generateTriangles constStream 0 seedTriangle = generateTriangles constStream 0 seedTriangle :=
  ⟨fun _ => rfl, generateTriangles_deterministic 0 seedTriangle constStream constStream fun _ => rfl⟩

/-! ## Mesh growth invariants (C1, C3) -/

theorem collidesWith_comm (t s : Triangle) : t.collidesWith s = s.collidesWith t := by
  simp [Triangle.collidesWith, Bool.and_comm]

/-- Pairwise no-overlap (in both argument orders) of a triangle list. -/
def MeshOK (tris : List Triangle) : Prop :=
  tris.Pairwise fun a b => a.collidesWith b = false ∧ b.collidesWith a = false

/-- All triangles of the list pass the minimum-angle check. -/
def AngOK (tris : List Triangle) : Prop :=
  ∀ t ∈ tris, hasTooSmallAngle t = false

theorem extendLine_some {tris : List Triangle} {l : Line} {pr : Triangle} {raw : Point}
    {t : Triangle} (h : extendLine tris l pr raw = some t) :
    (∀ s ∈ tris, s.equals t = false ∧ s.collidesWith t = false) ∧
      hasTooSmallAngle t = false ∧ t = ⟨l.p0, l.p1, clampToScreen raw⟩ := by
  unfold extendLine at h
  by_cases h1 : tris.any (fun s => s.equals ⟨l.p0, l.p1, clampToScreen raw⟩ ||
      s.collidesWith ⟨l.p0, l.p1, clampToScreen raw⟩) = true
  · rw [if_pos h1] at h
    cases h
  · rw [if_neg h1] at h
    by_cases h2 : hasTooSmallAngle ⟨l.p0, l.p1, clampToScreen raw⟩ = true
    · rw [if_pos h2] at h
      cases h
    · rw [if_neg h2] at h
      rw [Option.some_inj] at h
      subst h
      rw [Bool.not_eq_true] at h2
      refine ⟨?_, h2, rfl⟩
      intro s hs
      rw [Bool.not_eq_true, List.any_eq_false] at h1
      have h3 := h1 s hs
      simp only [Bool.or_eq_true, not_or, Bool.not_eq_true] at h3
      exact h3

theorem tryRetries_some {stream : RandPoints} {tris : List Triangle} {l : Line}
    {pr : Triangle} {t : Triangle} :
    ∀ {r idx idx1}, tryRetries stream tris l pr idx r = (some t, idx1) →
      ∃ n, extendLine tris l pr (stream n) = some t := by
  intro r
  induction r with
  | zero =>
    intro idx idx1 h
    cases h
  | succ n ih =>
    intro idx idx1 h
    unfold tryRetries at h
    cases he : extendLine tris l pr (stream idx) with
    | some u =>
      simp only [he] at h
      cases h
      exact ⟨idx, he⟩
    | none =>
      simp only [he] at h
      exact ih h

theorem tryEdges_some {stream : RandPoints} {tris : List Triangle} {t : Triangle} :
    ∀ {lines idx idx1}, tryEdges stream tris lines idx = (some t, idx1) →
      ∃ l pr n, extendLine tris l pr (stream n) = some t := by
  intro lines
  induction lines with
  | nil =>
    intro idx idx1 h
    cases h
  | cons x rest ih =>
    intro idx idx1 h
    obtain ⟨l, pr⟩ := x
    unfold tryEdges at h
    cases hr : tryRetries stream tris l pr idx 3 with
    | mk first second =>
      simp only [hr] at h
      cases first with
      | some u =>
        simp only at h
        cases h
        obtain ⟨n, hn⟩ := tryRetries_some hr
        exact ⟨l, pr, n, hn⟩
      | none =>
        simp only at h
        exact ih h

theorem meshOK_append_one {tris : List Triangle} {t : Triangle} (h : MeshOK tris)
    (hall : ∀ s ∈ tris, s.collidesWith t = false) : MeshOK (tris ++ [t]) := by
  rw [MeshOK, List.pairwise_append]
  refine ⟨h, List.pairwise_singleton _ _, ?_⟩
  intro a ha b hb
  rw [List.mem_singleton] at hb
  subst hb
  exact ⟨hall a ha, by rw [collidesWith_comm]; exact hall a ha⟩

theorem infillGo_some_meshOK {tris : List Triangle} :
    ∀ {qs : List (Line × Line)} {acc res : List Triangle}, MeshOK (tris ++ acc) →
      infillGo tris qs acc = some res → MeshOK (tris ++ res) := by
  intro qs
  induction qs with
  | nil =>
    intro acc res hacc h
    cases h
    exact hacc
  | cons q rest ih =>
    intro acc res hacc h
    obtain ⟨l1, l2⟩ := q
    unfold infillGo at h
    cases hc : infillCandidate l1 l2 with
    | none =>
      simp only [hc] at h
      exact ih hacc h
    | some cand =>
      simp only [hc] at h
      by_cases h1 : ((tris ++ acc).any fun t => t.equals cand || t.collidesWith cand) = true
      · rw [if_pos h1] at h
        exact ih hacc h
      · rw [if_neg h1] at h
        by_cases h2 : hasTooSmallAngle cand = true
        · rw [if_pos h2] at h
          cases h
        · rw [if_neg h2] at h
          have hall : ∀ s ∈ tris ++ acc, s.collidesWith cand = false := by
            intro s hs
            rw [Bool.not_eq_true, List.any_eq_false] at h1
            have h3 := h1 s hs
            simp only [Bool.or_eq_true, not_or, Bool.not_eq_true] at h3
            exact h3.2
          have hnext : MeshOK (tris ++ (acc ++ [cand])) := by
            rw [← List.append_assoc]
            exact meshOK_append_one hacc hall
          exact ih hnext h

theorem genRound_meshOK {stream : RandPoints} {tris : List Triangle} {idx : ℕ}
    (h : MeshOK tris) :
    (∀ res, genRound stream tris idx = .done res → MeshOK res) ∧
    (∀ tris1 idx1, genRound stream tris idx = .again tris1 idx1 → MeshOK tris1) := by
  have key : ∀ g, genRound stream tris idx = g →
      ((∀ res, g = .done res → MeshOK res) ∧
       (∀ tris1 idx1, g = .again tris1 idx1 → MeshOK tris1)) := by
    intro g hg
    unfold genRound at hg
    by_cases hcap : maxTriangleNum < tris.length
    · rw [if_pos hcap] at hg
      subst hg
      constructor
      · intro res hr
        cases hr
        exact h
      · intro t1 i1 hr
        cases hr
    · rw [if_neg hcap] at hg
      by_cases hlines : (findLinesToExtend tris).isEmpty = true
      · simp only [hlines, if_pos] at hg
        subst hg
        constructor
        · intro res hr
          cases hr
          exact h
        · intro t1 i1 hr
          cases hr
      · simp only [hlines] at hg
        rw [if_neg (by simp [hlines])] at hg
        cases hte : tryEdges stream tris (findLinesToExtend tris) idx with
        | mk first idx1 =>
          simp only [hte] at hg
          cases first with
          | none =>
            simp only at hg
            by_cases hsz : tris.length < 10
            · rw [if_pos hsz] at hg
              subst hg
              constructor
              · intro res hr
                cases hr
              · intro t1 i1 hr
                cases hr
                exact h
            · rw [if_neg hsz] at hg
              subst hg
              constructor
              · intro res hr
                cases hr
                exact h
              · intro t1 i1 hr
                cases hr
          | some t =>
            simp only at hg
            obtain ⟨l, pr, n, hext⟩ := tryEdges_some hte
            have hfacts := extendLine_some hext
            have hOK1 : MeshOK (tris ++ [t]) :=
              meshOK_append_one h fun s hs => (hfacts.1 s hs).2
            cases hinf : getNewTrianglesFromExistingPoints (tris ++ [t]) with
            | none =>
              simp only [hinf] at hg
              subst hg
              constructor
              · intro res hr
                cases hr
              · intro t1 i1 hr
                cases hr
                exact List.Pairwise.sublist (List.take_sublist _ _) hOK1
            | some news =>
              simp only [hinf] at hg
              subst hg
              constructor
              · intro res hr
                cases hr
              · intro t1 i1 hr
                cases hr
                exact infillGo_some_meshOK (by simpa using hOK1) hinf
  exact key (genRound stream tris idx) rfl

theorem genLoop_meshOK {stream : RandPoints} :
    ∀ {fuel : ℕ} {tris : List Triangle} {idx : ℕ}, MeshOK tris →
      MeshOK (genLoop stream fuel tris idx).1 := by
  intro fuel
  induction fuel with
  | zero =>
    intro tris idx h
    exact h
  | succ n ih =>
    intro tris idx h
    unfold genLoop
    cases hr : genRound stream tris idx with
    | done res =>
      exact (genRound_meshOK h).1 res hr
    | again tris1 idx1 =>
      exact ih ((genRound_meshOK h).2 tris1 idx1 hr)

/-- C1: no two triangles of a generated mesh overlap: for every stream
of random draws, every fuel bound and every seed triangle, the working
list of `generateTriangles` is pairwise non-colliding under
`collidesWith` (in both argument orders); triangles may share an edge
or a vertex, which the half-open separating-axis comparisons do not
count as a collision. -/
theorem generateTriangles_no_overlap (stream : RandPoints) (fuel : ℕ) (seed : Triangle) :
    ((generateTriangles stream fuel seed).1).Pairwise
      (fun a b => a.collidesWith b = false ∧ b.collidesWith a = false) :=
  genLoop_meshOK (List.pairwise_singleton _ _)

theorem infillGo_some_angOK {tris : List Triangle} :
    ∀ {qs : List (Line × Line)} {acc res : List Triangle}, AngOK acc →
      infillGo tris qs acc = some res → AngOK res := by
  intro qs
  induction qs with
  | nil =>
    intro acc res hacc h
    cases h
    exact hacc
  | cons q rest ih =>
    intro acc res hacc h
    obtain ⟨l1, l2⟩ := q
    unfold infillGo at h
    cases hc : infillCandidate l1 l2 with
    | none =>
      simp only [hc] at h
      exact ih hacc h
    | some cand =>
      simp only [hc] at h
      by_cases h1 : ((tris ++ acc).any fun t => t.equals cand || t.collidesWith cand) = true
      · rw [if_pos h1] at h
        exact ih hacc h
      · rw [if_neg h1] at h
        by_cases h2 : hasTooSmallAngle cand = true
        · rw [if_pos h2] at h
          cases h
        · rw [if_neg h2] at h
          rw [Bool.not_eq_true] at h2
          have hacc1 : AngOK (acc ++ [cand]) := by
            intro t ht
            rw [List.mem_append, List.mem_singleton] at ht
            cases ht with
            | inl hm => exact hacc t hm
            | inr he => rw [he]; exact h2
          exact ih hacc1 h

theorem genRound_angOK {stream : RandPoints} {tris : List Triangle} {idx : ℕ}
    (h : AngOK tris) :
    (∀ res, genRound stream tris idx = .done res → AngOK res) ∧
    (∀ tris1 idx1, genRound stream tris idx = .again tris1 idx1 → AngOK tris1) := by
  have key : ∀ g, genRound stream tris idx = g →
      ((∀ res, g = .done res → AngOK res) ∧
       (∀ tris1 idx1, g = .again tris1 idx1 → AngOK tris1)) := by
    intro g hg
    unfold genRound at hg
    by_cases hcap : maxTriangleNum < tris.length
    · rw [if_pos hcap] at hg
      subst hg
      refine ⟨fun res hr => ?_, fun t1 i1 hr => ?_⟩
      · cases hr; exact h
      · cases hr
    · rw [if_neg hcap] at hg
      by_cases hlines : (findLinesToExtend tris).isEmpty = true
      · simp only [hlines, if_pos] at hg
        subst hg
        refine ⟨fun res hr => ?_, fun t1 i1 hr => ?_⟩
        · cases hr; exact h
        · cases hr
      · simp only [hlines] at hg
        rw [if_neg (by simp [hlines])] at hg
        cases hte : tryEdges stream tris (findLinesToExtend tris) idx with
        | mk first idx1 =>
          simp only [hte] at hg
          cases first with
          | none =>
            simp only at hg
            by_cases hsz : tris.length < 10
            · rw [if_pos hsz] at hg
              subst hg
              refine ⟨fun res hr => ?_, fun t1 i1 hr => ?_⟩
              · cases hr
              · cases hr; exact h
            · rw [if_neg hsz] at hg
              subst hg
              refine ⟨fun res hr => ?_, fun t1 i1 hr => ?_⟩
              · cases hr; exact h
              · cases hr
          | some t =>
            simp only at hg
            obtain ⟨l, pr, n, hext⟩ := tryEdges_some hte
            have hfacts := extendLine_some hext
            have hOK1 : AngOK (tris ++ [t]) := by
              intro s hs
              rw [List.mem_append, List.mem_singleton] at hs
              cases hs with
              | inl hm => exact h s hm
              | inr he => rw [he]; exact hfacts.2.1
            cases hinf : getNewTrianglesFromExistingPoints (tris ++ [t]) with
            | none =>
              simp only [hinf] at hg
              subst hg
              refine ⟨fun res hr => ?_, fun t1 i1 hr => ?_⟩
              · cases hr
              · cases hr
                intro s hs
                exact hOK1 s (List.mem_of_mem_take hs)
            | some news =>
              simp only [hinf] at hg
              subst hg
              refine ⟨fun res hr => ?_, fun t1 i1 hr => ?_⟩
              · cases hr
              · cases hr
                intro s hs
                rw [List.mem_append] at hs
                cases hs with
                | inl hm => exact hOK1 s hm
                | inr hm => exact infillGo_some_angOK (fun u hu => by cases hu) hinf s hm
  exact key (genRound stream tris idx) rfl

theorem genLoop_angOK {stream : RandPoints} :
    ∀ {fuel : ℕ} {tris : List Triangle} {idx : ℕ}, AngOK tris →
      AngOK (genLoop stream fuel tris idx).1 := by
  intro fuel
  induction fuel with
  | zero =>
    intro tris idx h
    exact h
  | succ n ih =>
    intro tris idx h
    unfold genLoop
    cases hr : genRound stream tris idx with
    | done res =>
      exact (genRound_angOK h).1 res hr
    | again tris1 idx1 =>
      exact ih ((genRound_angOK h).2 tris1 idx1 hr)

/-- The cosine the source computes at a triangle vertex:
`cos := v1.innerProd(v2) / v1.norm() / v2.norm()`, written over `ℝ`
with `norm = sqrt (normSq)`. -/
noncomputable def cosR (v1 v2 : Point) : ℝ :=
  (v1.innerProd v2 : ℝ) / (Real.sqrt (v1.normSq : ℝ) * Real.sqrt (v2.normSq : ℝ))

theorem Point.normSq_nonneg (p : Point) : 0 ≤ p.normSq := by
  unfold Point.normSq
  positivity

/-- The rational rejection test agrees with the source's real-valued
formula: a candidate passes (`cosTooLarge = false`) exactly when the
real cosine of the vertex angle is at most `cos (π/6)`, i.e. the angle
is at least 30°. -/
theorem cosTooLarge_false_cosR (v1 v2 : Point) (h : cosTooLarge v1 v2 = false) :
    cosR v1 v2 ≤ Real.cos (Real.pi / 6) := by
  rw [Real.cos_pi_div_six]
  unfold cosR
  have hN1 : (0 : ℝ) ≤ (v1.normSq : ℝ) := by
    rw [← Rat.cast_zero]
    exact Rat.cast_le.mpr (Point.normSq_nonneg v1)
  have hN2 : (0 : ℝ) ≤ (v2.normSq : ℝ) := by
    rw [← Rat.cast_zero]
    exact Rat.cast_le.mpr (Point.normSq_nonneg v2)
  have hd : (0 : ℝ) ≤ Real.sqrt (v1.normSq : ℝ) * Real.sqrt (v2.normSq : ℝ) := by
    positivity
  have hs3 : (0 : ℝ) ≤ Real.sqrt 3 / 2 := by positivity
  unfold cosTooLarge at h
  rw [Bool.and_eq_false_iff] at h
  cases h with
  | inl hdot =>
    have hq : v1.innerProd v2 ≤ 0 := by
      have := of_decide_eq_false hdot
      exact le_of_not_lt this
    have hr : (v1.innerProd v2 : ℝ) ≤ 0 := by
      rw [← Rat.cast_zero]
      exact Rat.cast_le.mpr hq
    exact le_trans (div_nonpos_iff.mpr (Or.inr ⟨hr, hd⟩)) hs3
  | inr hsq =>
    have hq : 4 * v1.innerProd v2 ^ 2 ≤ 3 * v1.normSq * v2.normSq := by
      have := of_decide_eq_false hsq
      exact le_of_not_lt this
    have hr : 4 * (v1.innerProd v2 : ℝ) ^ 2 ≤ 3 * (v1.normSq : ℝ) * (v2.normSq : ℝ) := by
      have hcast := Rat.cast_le (K := ℝ).mpr hq
      push_cast at hcast
      exact hcast
    rcases eq_or_lt_of_le hd with hd0 | hdpos
    · rw [← hd0, div_zero]
      exact hs3
    · rw [div_le_iff hdpos]
      have hsq2 : (v1.innerProd v2 : ℝ) ^ 2 ≤ (3 / 4) * ((v1.normSq : ℝ) * (v2.normSq : ℝ)) := by
        nlinarith
      have habs : (v1.innerProd v2 : ℝ) ≤ Real.sqrt ((3 / 4) * ((v1.normSq : ℝ) * (v2.normSq : ℝ))) := by
        have h1 : (v1.innerProd v2 : ℝ) ≤ |(v1.innerProd v2 : ℝ)| := le_abs_self _
        have h2 : |(v1.innerProd v2 : ℝ)| = Real.sqrt ((v1.innerProd v2 : ℝ) ^ 2) := by
          rw [Real.sqrt_sq_eq_abs]
        rw [h2] at h1
        exact le_trans h1 (Real.sqrt_le_sqrt hsq2)
      have hsplit : Real.sqrt ((3 / 4) * ((v1.normSq : ℝ) * (v2.normSq : ℝ))) =
          Real.sqrt 3 / 2 * (Real.sqrt (v1.normSq : ℝ) * Real.sqrt (v2.normSq : ℝ)) := by
        have s3 : Real.sqrt 3 ^ 2 = 3 := Real.sq_sqrt (by norm_num)
        have s1 : Real.sqrt (v1.normSq : ℝ) ^ 2 = (v1.normSq : ℝ) := Real.sq_sqrt hN1
        have s2 : Real.sqrt (v2.normSq : ℝ) ^ 2 = (v2.normSq : ℝ) := Real.sq_sqrt hN2
        have e1 : ((3:ℝ) / 4) * ((v1.normSq : ℝ) * (v2.normSq : ℝ)) =
            (Real.sqrt 3 / 2 * (Real.sqrt (v1.normSq : ℝ) * Real.sqrt (v2.normSq : ℝ))) ^ 2 := by
          have e2 : (Real.sqrt 3 / 2 * (Real.sqrt (v1.normSq : ℝ) * Real.sqrt (v2.normSq : ℝ))) ^ 2 =
              Real.sqrt 3 ^ 2 * (Real.sqrt (v1.normSq : ℝ) ^ 2 * Real.sqrt (v2.normSq : ℝ) ^ 2) / 4 := by
            ring
          rw [e2, s3, s1, s2]
          ring
        rw [e1, Real.sqrt_sq (by positivity)]
      rw [hsplit] at habs
      exact habs

/-- C3: every triangle of a mesh generated from the game's fixed seed
triangle — the seed included — passes the minimum-angle test: the
rational rejection check is off for it and, equivalently, at each of its
three vertices the real cosine of the interior angle is at most
`cos (π/6)`, i.e. every interior angle is at least 30°. -/
theorem generateTriangles_min_angle (stream : RandPoints) (fuel : ℕ) :
    ∀ t ∈ (generateTriangles stream fuel seedTriangle).1,
      hasTooSmallAngle t = false ∧
      ∀ i, i < 3 →
        cosR ((t.v (i + 1)).sub (t.v i)) ((t.v (i + 2)).sub (t.v i)) ≤
          Real.cos (Real.pi / 6) := by
  intro t ht
  have hseed : AngOK [seedTriangle] := by
    intro s hs
    rw [List.mem_singleton] at hs
    subst hs
    with_unfolding_all decide
  have hang := @genLoop_angOK stream fuel [seedTriangle] 0 hseed t ht
  refine ⟨hang, ?_⟩
  intro i hi
  apply cosTooLarge_false_cosR
  unfold hasTooSmallAngle at hang
  rw [List.any_eq_false] at hang
  have h3 := hang i (List.mem_range.mpr hi)
  rw [Bool.not_eq_true] at h3
  exact h3

/-- Witness for `generateTriangles_min_angle`: at fuel 0 the returned
working list is the seed triangle alone, and its angles pass. -/
theorem generateTriangles_min_angle_witness :
    seedTriangle ∈ (generateTriangles constStream 0 seedTriangle).1 ∧
    (hasTooSmallAngle seedTriangle = false ∧
      ∀ i, i < 3 →
        cosR ((seedTriangle.v (i + 1)).sub (seedTriangle.v i))
            ((seedTriangle.v (i + 2)).sub (seedTriangle.v i)) ≤
          Real.cos (Real.pi / 6)) :=
  ⟨List.mem_singleton.mpr rfl,
    generateTriangles_min_angle constStream 0 seedTriangle (List.mem_singleton.mpr rfl)⟩

/- ### C4: termination of the growth loop -/

/-- An adversarial random stream: every raw draw is `(320, 256)`, a
point in the interior of the seed triangle. Every candidate extension
triangle then overlaps the seed and is rejected by the collision check,
so no round ever makes progress. -/
def badStream : RandPoints := fun _ => ⟨320, 256⟩

/-- `stream` makes the growth loop diverge from `seed`: however much
fuel the loop is given, the source's `break` is never reached. -/
def DivergesFrom (stream : RandPoints) (seed : Triangle) : Prop :=
  ∀ fuel, (generateTriangles stream fuel seed).2 = false

lemma tryRetries_bad (l : Line) (pr : Triangle)
    (h : extendLine [seedTriangle] l pr ⟨320, 256⟩ = none) :
    ∀ r idx, tryRetries badStream [seedTriangle] l pr idx r = (none, idx + r) := by
  intro r
  induction r with
  | zero => intro idx; rfl
  | succ n ih =>
    intro idx
    have hb : badStream idx = (⟨320, 256⟩ : Point) := rfl
    simp only [tryRetries, hb, h, ih (idx + 1), Prod.mk.injEq, true_and]
    omega

lemma tryEdges_bad :
    ∀ ls : List (Line × Triangle),
      (∀ p ∈ ls, extendLine [seedTriangle] p.1 p.2 ⟨320, 256⟩ = none) →
      ∀ idx, ∃ j, tryEdges badStream [seedTriangle] ls idx = (none, j) := by
  intro ls
  induction ls with
  | nil => exact fun _ idx => ⟨idx, rfl⟩
  | cons hd tl ih =>
    intro h idx
    obtain ⟨l, pr⟩ := hd
    have h1 : extendLine [seedTriangle] l pr ⟨320, 256⟩ = none :=
      h (l, pr) (List.mem_cons_self _ _)
    obtain ⟨j, hj⟩ := ih (fun p hp => h p (List.mem_cons_of_mem _ hp)) (idx + 3)
    refine ⟨j, ?_⟩
    simp only [tryEdges, tryRetries_bad l pr h1 3 idx, hj]

/-- On `badStream`, a round from the bare seed fails all 3 retries on
each of the 3 frontier edges and, as `1 < 10`, retries with the same
mesh: the loop state never changes. -/
lemma genRound_bad (idx : ℕ) :
    ∃ j, genRound badStream [seedTriangle] idx = .again [seedTriangle] j := by
  have hextS : ∀ p ∈ findLinesToExtend [seedTriangle],
      extendLineS [seedTriangle] p.1 p.2 ⟨320, 256⟩ = none := by
    with_unfolding_all decide
  have hext : ∀ p ∈ findLinesToExtend [seedTriangle],
      extendLine [seedTriangle] p.1 p.2 ⟨320, 256⟩ = none := by
    intro p hp
    rw [← extendLineS_eq]
    exact hextS p hp
  have hne : (findLinesToExtend [seedTriangle]).isEmpty = false := by
    with_unfolding_all decide
  obtain ⟨j, hte⟩ := tryEdges_bad (findLinesToExtend [seedTriangle]) hext idx
  refine ⟨j, ?_⟩
  unfold genRound
  rw [if_neg (by decide : ¬ maxTriangleNum < ([seedTriangle] : List Triangle).length)]
  simp only [hne, hte, Bool.false_eq_true, if_false]
  rw [if_pos (by decide : ([seedTriangle] : List Triangle).length < 10)]

/-- Unrolling the loop one step when the round asks for another
iteration. -/
lemma genLoop_succ_again (stream : RandPoints) (fuel : ℕ) (tris tris1 : List Triangle)
    (idx idx1 : ℕ) (h : genRound stream tris idx = .again tris1 idx1) :
    genLoop stream (fuel + 1) tris idx = genLoop stream fuel tris1 idx1 := by
  conv_lhs => rw [genLoop]
  rw [h]

lemma genLoop_bad : ∀ fuel idx, (genLoop badStream fuel [seedTriangle] idx).2 = false := by
  intro fuel
  induction fuel with
  | zero => intro idx; rfl
  | succ n ih =>
    intro idx
    obtain ⟨j, hr⟩ := genRound_bad idx
    rw [genLoop_succ_again badStream n [seedTriangle] [seedTriangle] idx j hr]
    exact ih j

/-- C4 (corrected): mesh growth is not guaranteed to terminate — there
is a random stream on which `generateTriangles`, started from the
game's seed triangle, never reaches its `break`, whatever fuel bound it
is given. The source's `for {}` loop has no retry/backtrack budget that
bounds it. -/
theorem generateTriangles_not_always_terminating :
    ∃ stream : RandPoints, DivergesFrom stream seedTriangle :=
  ⟨badStream, fun fuel => genLoop_bad fuel 0⟩

/-- Counterexample to the original C4: the concrete constant stream
drawing the interior point `(320, 256)` forever makes `generateTriangles`
diverge from the game's seed triangle. -/
theorem generateTriangles_divergence_counterexample :
    DivergesFrom badStream seedTriangle :=
  fun fuel => genLoop_bad fuel 0

/- ### C5: backtracking semantics of a failed round -/

/-- A point extending the first frontier edge of the seed into a valid
second triangle. -/
def pGood : Point := ⟨192, 192⟩

/-- A stream drawing `pGood` first and then forever the point
`(320, 256)`, interior to the seed triangle. -/
def c5Stream : RandPoints := fun n => if n = 0 then pGood else ⟨320, 256⟩

/-- The triangle built from the seed's first frontier edge and `pGood`. -/
def c5T1 : Triangle := ⟨⟨320, 192⟩, ⟨256, 288⟩, ⟨192, 192⟩⟩

/-- C5 (corrected): what a failed round actually does. When every
frontier edge exhausts its retries, a mesh below 10 triangles is KEPT
as is (the round merely retries with the same triangles, the stream
advanced), and a mesh of 10 or more is accepted as final; only when an
extension succeeds but the infill pass signals impossibility does the
round discard everything but the first triangle — and it does so
whatever the mesh size. -/
theorem genRound_failure_semantics (stream : RandPoints) (tris : List Triangle)
    (idx idx1 : ℕ)
    (hcap : ¬ maxTriangleNum < tris.length)
    (hne : (findLinesToExtend tris).isEmpty = false) :
    (tryEdges stream tris (findLinesToExtend tris) idx = (none, idx1) →
      (tris.length < 10 → genRound stream tris idx = .again tris idx1) ∧
      (¬ tris.length < 10 → genRound stream tris idx = .done tris)) ∧
    (∀ t, tryEdges stream tris (findLinesToExtend tris) idx = (some t, idx1) →
      getNewTrianglesFromExistingPoints (tris ++ [t]) = none →
      genRound stream tris idx = .again ((tris ++ [t]).take 1) idx1) := by
  constructor
  · intro hte
    constructor
    · intro hlen
      unfold genRound
      rw [if_neg hcap]
      simp only [hne, Bool.false_eq_true, if_false, hte]
      rw [if_pos hlen]
    · intro hlen
      unfold genRound
      rw [if_neg hcap]
      simp only [hne, Bool.false_eq_true, if_false, hte]
      rw [if_neg hlen]
  · intro t hte hinf
    unfold genRound
    rw [if_neg hcap]
    simp only [hne, Bool.false_eq_true, if_false, hte, hinf]

/-- Witness for `genRound_failure_semantics` at the concrete state
`[seedTriangle, c5T1]` reached after one round of `c5Stream`: the
round's extension attempts all fail, the mesh has 2 < 10 triangles, and
the round keeps both triangles. -/
theorem genRound_failure_semantics_witness :
    (¬ maxTriangleNum < ([seedTriangle, c5T1] : List Triangle).length) ∧
    (findLinesToExtend [seedTriangle, c5T1]).isEmpty = false ∧
    tryEdges c5Stream [seedTriangle, c5T1]
      (findLinesToExtend [seedTriangle, c5T1]) 1 = (none, 13) ∧
    ([seedTriangle, c5T1] : List Triangle).length < 10 ∧
    genRound c5Stream [seedTriangle, c5T1] 1 = .again [seedTriangle, c5T1] 13 := by
  have hne : (findLinesToExtend [seedTriangle, c5T1]).isEmpty = false := by
    with_unfolding_all decide
  have hte : tryEdges c5Stream [seedTriangle, c5T1]
      (findLinesToExtend [seedTriangle, c5T1]) 1 = (none, 13) := by
    rw [← tryEdgesS_eq]
    with_unfolding_all decide
  refine ⟨by decide, hne, hte, by decide, ?_⟩
  exact ((genRound_failure_semantics c5Stream [seedTriangle, c5T1] 1 13
    (by decide) hne).1 hte).1 (by decide)

/-- Counterexample to the original C5: growing from the seed with
`c5Stream`, the first round accepts `c5T1`; in the second round every
frontier edge exhausts its retries, the mesh has fewer than 10
triangles, yet the round keeps `[seedTriangle, c5T1]` — it does not
discard everything but the seed. -/
theorem growth_no_reset_counterexample :
    genRound c5Stream [seedTriangle] 0 = .again [seedTriangle, c5T1] 1 ∧
    (tryEdges c5Stream [seedTriangle, c5T1]
      (findLinesToExtend [seedTriangle, c5T1]) 1).1 = none ∧
    ([seedTriangle, c5T1] : List Triangle).length < 10 ∧
    genRound c5Stream [seedTriangle, c5T1] 1 = .again [seedTriangle, c5T1] 13 ∧
    ([seedTriangle, c5T1] : List Triangle) ≠ [seedTriangle] := by
  have h1 : genRoundS c5Stream [seedTriangle] 0 = .again [seedTriangle, c5T1] 1 := by
    with_unfolding_all decide
  have h2 : tryEdgesS c5Stream [seedTriangle, c5T1]
      (findLinesToExtend [seedTriangle, c5T1]) 1 = (none, 13) := by
    with_unfolding_all decide
  have h3 : genRoundS c5Stream [seedTriangle, c5T1] 1 = .again [seedTriangle, c5T1] 13 := by
    with_unfolding_all decide
  refine ⟨?_, ?_, by decide, ?_, by with_unfolding_all decide⟩
  · rw [← genRoundS_eq]
    exact h1
  · rw [← tryEdgesS_eq, h2]
  · rw [← genRoundS_eq]
    exact h3
